import Mathlib

/-!
Verification development for the Private State Token issuer core
(`src/src/private-state-token.js`).

The elliptic-curve dependency (noble p384) is represented by a `Curve`
structure of abstract operations; the repository's own code is embedded
faithfully on top of it.  The byte codec (`DataBuffer`, `Base64`) lives in
`utils.js`, which is repository code outside `src/`; those primitives are
modelled from the specification (big-endian length-prefixed framing, short
read is a hard parse error, Base64 is an assumed-correct bijection and is
modelled as the identity on byte sequences, so all messages are byte lists).
-/

namespace PST

set_option maxRecDepth 1000000

/-- Modelled from the spec: `DataBuffer.numberToBytes` of `utils.js` (missing
from `src/`) — fixed-width big-endian integer encoding (spec section 3:
"Stored canonically as a 48-byte big-endian fixed-width value"). -/
def numberToBytes (v : ℕ) : ℕ → List ℕ
  | 0 => []
  | len + 1 => numberToBytes (v / 256) len ++ [v % 256]

/-- Modelled from the spec: `DataBuffer.bytesToNumber` of `utils.js` —
big-endian bytes to integer (spec section 4.2: all multi-byte integers are
big-endian). -/
def bytesToNumber (bs : List ℕ) : ℕ := bs.foldl (fun acc b => acc * 256 + b) 0

/-- Modelled from the spec: `DataBuffer.readBytes` of `utils.js` — reads
exactly `n` bytes; a short read is a hard parse error (spec section 7:
"DecodeError — malformed wire message (short read, invalid framing)"). -/
def readBytesD (buf : List ℕ) (n : ℕ) : Except Unit (List ℕ × List ℕ) :=
  if n ≤ buf.length then .ok (buf.take n, buf.drop n) else .error ()

/-- Modelled from the spec: `DataBuffer.readInt` of `utils.js` — reads an
`n`-byte big-endian integer. -/
def readIntD (buf : List ℕ) (n : ℕ) : Except Unit (ℕ × List ℕ) :=
  match readBytesD buf n with
  | .error e => .error e
  | .ok (bs, rest) => .ok (bytesToNumber bs, rest)

/-- The hash function selected by a protocol version (`sha384` / `sha512`
function values in the source). -/
inductive HashFn
  | sha384
  | sha512
  deriving DecidableEq

/-- The `hashTofieldConfig` object built in `issue` and in
`#generateDLEQProof`. -/
structure HtfConfig where
  DST : String
  m : ℕ
  p : ℕ
  k : ℕ
  expand : String
  hash : HashFn
  deriving DecidableEq

/-- The option object passed to `hashToCurve` in `redeem`. -/
structure H2CConfig where
  DST : String
  hash : HashFn
  deriving DecidableEq

/-- Interface of the external elliptic-curve dependency (`@noble/curves`)
as the source uses it.  Point codes are natural numbers; `fromBytes` is
`ProjectivePoint.fromHex` (none on an invalid encoding), `ptBytes` is
`toRawBytes(false)`, `mul` is point-by-scalar multiplication, `add` point
addition, `zero` is `ProjectivePoint.ZERO`, `base` is the generator, and
`hashToField` / `hashToCurve` are the hash-to-field and hash-to-curve
primitives with their configuration objects. -/
structure Curve where
  fromBytes : List ℕ → Option ℕ
  ptBytes : ℕ → List ℕ
  mul : ℕ → ℕ → ℕ
  add : ℕ → ℕ → ℕ
  zero : ℕ
  base : ℕ
  hashToField : List ℕ → HtfConfig → ℕ
  hashToCurve : List ℕ → H2CConfig → ℕ

/-- `VOPRF_P384.ORDER` (`ec.CURVE.n`), the P-384 group order, as listed in
the source's comment. -/
def VOPRF_P384_ORDER : ℕ :=
  39402006196394479212279040100143613805079739270465446667946905279627659399113263569398956308152294913554433653942643

/-- `ECPoint`: an X9.62-encoded curve point.  The source keeps both the
byte encoding (`#value`) and the library point (`#point`); a point built
from bytes keeps the original bytes, a point built from a library point
serializes it with `toRawBytes(false)`. -/
structure ECPoint where
  value : List ℕ
  point : ℕ
  deriving DecidableEq

/-- The `ECPoint` constructor on a byte string: `ProjectivePoint.fromHex`
throws on an invalid encoding, modelled by `none`. -/
def ECPoint.fromBytes (C : Curve) (v : List ℕ) : Option ECPoint :=
  (C.fromBytes v).map (fun p => ⟨v, p⟩)

/-- The `ECPoint` constructor on a library point. -/
def ECPoint.ofPoint (C : Curve) (p : ℕ) : ECPoint := ⟨C.ptBytes p, p⟩

/-- `ECPoint.multiply`: `new ECPoint(this.#point.multiply(scalar))`. -/
def ECPoint.multiply (C : Curve) (T : ECPoint) (s : ℕ) : ECPoint :=
  ECPoint.ofPoint C (C.mul T.point s)

/-- `PrivateStateTokenSecretKey`. -/
structure PrivateStateTokenSecretKey where
  id : ℕ
  scalar : ℕ
  expiry : ℕ
  deriving DecidableEq

/-- `PrivateStateTokenPublicKey`: the source stores the 97-byte X9.62
encoding re-interpreted as one big integer (`scalar`). -/
structure PrivateStateTokenPublicKey where
  id : ℕ
  scalar : ℕ
  expiry : ℕ
  deriving DecidableEq

/-- `PrivateStateTokenPublicKey.toBytes`:
`DataBuffer.numberToBytes(this.scalar, VOPRF_P384.BYTES * 2 + 1)`. -/
def PrivateStateTokenPublicKey.toBytes (k : PrivateStateTokenPublicKey) : List ℕ :=
  numberToBytes k.scalar 97

/-- Fuel-driven floor of the base-10 logarithm; the fuel is never exhausted
when it is at least the argument. -/
def log10floorAux : ℕ → ℕ → ℕ
  | 0, _ => 0
  | fuel + 1, x => if x < 10 then 0 else log10floorAux fuel (x / 10) + 1

/-- Floor of the base-10 logarithm of a natural number (0 for 0). -/
def log10floor (x : ℕ) : ℕ := log10floorAux x x

/-- `Math.ceil(Math.log10 e)` for a positive integer `e`, under exact real
logarithm semantics: the least `m` with `10 ^ m ≥ e`.  (ECMAScript only
approximates `Math.log10`, but guarantees `Math.log10 1 = +0`, which is the
input the counterexample below uses.) -/
def ceilLog10 (e : ℕ) : ℕ := if e ≤ 1 then 0 else log10floor (e - 1) + 1

/-- The expiry rewrite in the `PrivateStateTokenKeyPair` constructor:
`expiry * 10 ** (Math.ceil(Math.max(16 - Math.ceil(Math.log10(expiry)), 0) / 3) * 3)`.
Natural subtraction already truncates at 0 exactly as `Math.max(_, 0)` does,
and `Math.ceil(x / 3)` on a natural `x` is `(x + 2) / 3`. -/
def scaleExpiry (e : ℕ) : ℕ :=
  e * 10 ^ (3 * ((max (16 - ceilLog10 e) 0 + 2) / 3))

/-- JavaScript `a || b` on numbers, where 0 is falsy. -/
def jsOr (a b : ℕ) : ℕ := if a = 0 then b else a

/-- `PrivateStateTokenKeyPair`. -/
structure PrivateStateTokenKeyPair where
  id : ℕ
  publicKey : PrivateStateTokenPublicKey
  secretKey : PrivateStateTokenSecretKey
  expiry : ℕ
  deriving DecidableEq

/-- The `PrivateStateTokenKeyPair` constructor.  `now` stands for
`Date.now()` in the 90-day default branch; the expiry is put through the
microsecond "sanitation" rewrite and propagated to both sub-keys. -/
def PrivateStateTokenKeyPair.make (id : ℕ) (pub : PrivateStateTokenPublicKey)
    (sec : PrivateStateTokenSecretKey) (expiry now : ℕ) : PrivateStateTokenKeyPair :=
  let id2 := jsOr id (jsOr sec.id 0)
  let e0 := jsOr expiry (jsOr sec.expiry (jsOr pub.expiry (now + 90 * 24 * 60 * 60 * 1000)))
  let e := scaleExpiry e0
  { id := id2
    publicKey := { pub with expiry := e }
    secretKey := { sec with expiry := e }
    expiry := e }

/-- `IssueRequest`: an ordered sequence of point nonces. -/
structure IssueRequest where
  nonces : List ECPoint
  deriving DecidableEq

/-- `IssueRequest.count`. -/
def IssueRequest.count (m : IssueRequest) : ℕ := m.nonces.length

/-- `IssueRequest.toBytes`: `u16 count` followed by the nonce encodings. -/
def IssueRequest.toBytes (m : IssueRequest) : List ℕ :=
  numberToBytes m.count 2 ++ (m.nonces.map ECPoint.value).flatten

/-- The `while (nonces.length < count)` loop of `IssueRequest.from`: each
iteration reads 97 bytes and pushes the decoded point, silently skipping a
chunk that fails point validation.  The loop is driven by a fuel argument;
the caller passes `buffer length + 1`, which a short-read error always
precedes (each iteration consumes 97 bytes), so the fuel-exhausted branch is
unreachable from `IssueRequest.fromBytes`. -/
def issueReqLoop (C : Curve) (count : ℕ) : ℕ → List ℕ → List ECPoint → Except Unit (List ECPoint)
  | 0, _, _ => .error ()
  | fuel + 1, buf, acc =>
    if acc.length < count then
      if 97 ≤ buf.length then
        match ECPoint.fromBytes C (buf.take 97) with
        | some pt => issueReqLoop C count fuel (buf.drop 97) (acc ++ [pt])
        | none => issueReqLoop C count fuel (buf.drop 97) acc
      else .error ()
    else .ok acc

/-- `IssueRequest.from` on the decoded bytes (the Base64 wrapper is the
assumed-provided codec and is dropped).  The trailing
`filter(n => n !== null)` of the source never removes anything, since the
loop only ever pushes decoded points. -/
def IssueRequest.fromBytes (C : Curve) (s : List ℕ) : Except Unit IssueRequest :=
  match readIntD s 2 with
  | .error e => .error e
  | .ok (count, rest) =>
    match issueReqLoop C count (rest.length + 1) rest [] with
    | .error e => .error e
    | .ok nonces => .ok ⟨nonces⟩

/-- `IssueResponse`. -/
structure IssueResponse where
  keyID : ℕ
  signed : List ECPoint
  proof : List ℕ
  deriving DecidableEq

/-- `IssueResponse.issued`. -/
def IssueResponse.issued (m : IssueResponse) : ℕ := m.signed.length

/-- `IssueResponse.toBytes`: `u16 issued, u32 key_id, signed, u16 proof
length, proof`. -/
def IssueResponse.toBytes (m : IssueResponse) : List ℕ :=
  numberToBytes m.issued 2 ++ numberToBytes m.keyID 4 ++
    (m.signed.map ECPoint.value).flatten ++ numberToBytes m.proof.length 2 ++ m.proof

/-- `RedeemRequest`. -/
structure RedeemRequest where
  keyID : ℕ
  nonce : List ℕ
  point : ECPoint
  clientData : List ℕ
  deriving DecidableEq

/-- `RedeemRequest.from` on the decoded bytes: token length (read and
discarded), `u32 key_id`, 64-byte nonce, 97-byte point (the `ECPoint`
constructor throws on an invalid encoding), then the length-prefixed client
data. -/
def RedeemRequest.fromBytes (C : Curve) (s : List ℕ) : Except Unit RedeemRequest :=
  match readIntD s 2 with
  | .error e => .error e
  | .ok (_tokenLen, b1) =>
    match readIntD b1 4 with
    | .error e => .error e
    | .ok (keyID, b2) =>
      match readBytesD b2 64 with
      | .error e => .error e
      | .ok (nonce, b3) =>
        match readBytesD b3 97 with
        | .error e => .error e
        | .ok (value, b4) =>
          match ECPoint.fromBytes C value with
          | none => .error ()
          | some point =>
            match readIntD b4 2 with
            | .error e => .error e
            | .ok (clientDataLen, b5) =>
              match readBytesD b5 clientDataLen with
              | .error e => .error e
              | .ok (clientData, _) => .ok ⟨keyID, nonce, point, clientData⟩

/-- `RedeemRequest.toBytes`. -/
def RedeemRequest.toBytes (m : RedeemRequest) : List ℕ :=
  numberToBytes (m.nonce.length + m.point.value.length + 4) 2 ++
    numberToBytes m.keyID 4 ++ m.nonce ++ m.point.value ++
    numberToBytes m.clientData.length 2 ++ m.clientData

/-- `RedeemResponse`: the pass-through redemption record. -/
structure RedeemResponse where
  record : List ℕ
  deriving DecidableEq

/-- `PrivateStateTokenV3VOPRF` protocol configuration. -/
structure VersionConfig where
  name : String
  suite : String
  hash : HashFn
  hashToGroupDST : String
  hashToScalarDST : String
  deriving DecidableEq

/-- The V3 profile (SHA-512). -/
def PrivateStateTokenV3VOPRF : VersionConfig :=
  { name := "PrivateStateTokenV3VOPRF"
    suite := "P384_XMD:SHA-512_SSWU_RO_"
    hash := HashFn.sha512
    hashToGroupDST := "TrustToken VOPRF Experiment V2 HashToGroup\x00"
    hashToScalarDST := "TrustToken VOPRF Experiment V2 HashToScalar\x00" }

/-- The V1 profile (SHA-384). -/
def PrivateStateTokenV1VOPRF : VersionConfig :=
  { name := "PrivateStateTokenV1VOPRF"
    suite := "P384_XMD:SHA-384_SSWU_RO_"
    hash := HashFn.sha384
    hashToGroupDST := "HashToGroup-OPRFV1-\x01-P384-SHA384\x00"
    hashToScalarDST := "HashToScalar-OPRFV1-\x01-P384-SHA384\x00" }

/-- `PrivateStateTokenIssuer.getVersionConfig`:
`VERSIONS.get(version) || VERSIONS.get(DEFAULT_VERSION)` over the two-entry
version map, with default version `PrivateStateTokenV3VOPRF`. -/
def getVersionConfig (version : String) : VersionConfig :=
  if version = "PrivateStateTokenV3VOPRF" then PrivateStateTokenV3VOPRF
  else if version = "PrivateStateTokenV1VOPRF" then PrivateStateTokenV1VOPRF
  else PrivateStateTokenV3VOPRF

/-- The issuer: a host, an advertised batch size and a key map (a JS `Map`
keyed by key id, modelled as an association list). -/
structure Issuer where
  host : String
  maxBatchSize : ℕ
  keys : List (ℕ × PrivateStateTokenKeyPair)

/-- `publicKeys` getter: the public halves in map order. -/
def Issuer.publicKeysList (I : Issuer) : List PrivateStateTokenPublicKey :=
  I.keys.map (fun kv => kv.2.publicKey)

/-- The bytes `"DLEQ BATCH\0"` written by `writeString` in `issue`. -/
def dleqBatchHeader : List ℕ := [68, 76, 69, 81, 32, 66, 65, 84, 67, 72, 0]

/-- The bytes `"DLEQ\0"` written by `writeString` in `#generateDLEQProof`. -/
def dleqHeader : List ℕ := [68, 76, 69, 81, 0]

/-- The `hashTofieldConfig` object both `issue` and `#generateDLEQProof`
build from a version configuration. -/
def htfConfig (config : VersionConfig) : HtfConfig :=
  { DST := config.hashToScalarDST
    m := 1
    p := VOPRF_P384_ORDER
    k := 192
    expand := "xmd"
    hash := config.hash }

/-- The first loop of `issue`: for each blinded token `T` in order, sign
`z = T · sk`, accumulate `z`, and append `T` and `z` bytes to the batch
transcript (which starts as the public key bytes). -/
def issueBatch (C : Curve) (sk : ℕ) :
    List ECPoint → List ECPoint × List ℕ → List ECPoint × List ℕ
  | [], acc => acc
  | T :: rest, (signed, batch) =>
    issueBatch C sk rest
      (signed ++ [T.multiply C sk], batch ++ T.value ++ (T.multiply C sk).value)

/-- The batch-DLEQ exponent loop of `issue`: for each index `i`,
`e_i = hash_to_field("DLEQ BATCH\0" ‖ batch ‖ u16(i))` under the selected
version's hash-to-scalar configuration. -/
def issueExponentList (C : Curve) (config : VersionConfig)
    (keyPair : PrivateStateTokenKeyPair) (request : IssueRequest) : List ℕ :=
  let batch := (issueBatch C keyPair.secretKey.scalar request.nonces
    ([], keyPair.publicKey.toBytes)).2
  (List.range request.count).map
    (fun i => C.hashToField (dleqBatchHeader ++ batch ++ numberToBytes i 2) (htfConfig config))

/-- The linear-combination loops of `issue`: starting from
`ProjectivePoint.ZERO`, add `e_i · P_i` for each index. -/
def batchCombine (C : Curve) (pts exps : List ℕ) : ℕ :=
  (List.zip pts exps).foldl (fun acc pe => C.add acc (C.mul pe.1 pe.2)) C.zero

/-- `#generateDLEQProof`: fixed nonce `r = ORDER - 1`, commitments
`k0 = r · G` and `k1 = r · T*`, challenge
`c = hash_to_field("DLEQ\0" ‖ pk ‖ T* ‖ Z* ‖ k0 ‖ k1)` under the
version's hash-to-scalar configuration, response `u = (r + c · sk) mod n`,
proof `c_bytes(48) ‖ u_bytes(48)`. -/
def generateDLEQProof (C : Curve) (keyPair : PrivateStateTokenKeyPair)
    (btBatch zBatch : ℕ) (version : String) : List ℕ :=
  let r := VOPRF_P384_ORDER - 1
  let config := getVersionConfig version
  let cfg := htfConfig config
  let k0 := C.mul C.base r
  let k1 := C.mul btBatch r
  let msg := dleqHeader ++ keyPair.publicKey.toBytes ++ C.ptBytes btBatch ++
    C.ptBytes zBatch ++ C.ptBytes k0 ++ C.ptBytes k1
  let c := C.hashToField msg cfg
  let u := (r + c * keyPair.secretKey.scalar) % VOPRF_P384_ORDER
  numberToBytes c 48 ++ numberToBytes u 48

/-- `PrivateStateTokenIssuer.issue`.  The source invokes
`this.#generateDLEQProof(keyPair, blindedTokenBatch, zBatch)` without a
version argument, so that call always runs under the parameter default
`"PrivateStateTokenV3VOPRF"`, which the embedding passes explicitly. -/
def issue (C : Curve) (issuer : Issuer) (keyId : ℕ) (request : IssueRequest)
    (version : String) : Option IssueResponse :=
  match issuer.keys.lookup keyId with
  | none => none
  | some keyPair =>
    let config := getVersionConfig version
    let sb := issueBatch C keyPair.secretKey.scalar request.nonces
      ([], keyPair.publicKey.toBytes)
    let signedNonces := sb.1
    let exponentList := issueExponentList C config keyPair request
    let blindedTokenBatch := batchCombine C (request.nonces.map ECPoint.point) exponentList
    let zBatch := batchCombine C (signedNonces.map ECPoint.point) exponentList
    some ⟨keyId, signedNonces, generateDLEQProof C keyPair blindedTokenBatch zBatch
      "PrivateStateTokenV3VOPRF"⟩

/-- `PrivateStateTokenIssuer.redeem`.  On an unknown key id the optional
chain leaves the secret scalar undefined and the curve library's `multiply`
rejects a missing scalar (throws), modelled as `.error ()`; on a known key
the recomputed element is compared with the supplied point, returning the
redemption record on equality and `null` (`.ok none`) otherwise. -/
def redeem (C : Curve) (issuer : Issuer) (request : RedeemRequest)
    (record : List ℕ) (version : String) : Except Unit (Option RedeemResponse) :=
  let config := getVersionConfig version
  let evaluatedElement := C.hashToCurve request.nonce
    { DST := config.hashToGroupDST, hash := config.hash }
  match issuer.keys.lookup request.keyID with
  | none => .error ()
  | some kp =>
    let issuedElement := C.mul evaluatedElement kp.secretKey.scalar
    if request.point.point = issuedElement then .ok (some ⟨record⟩) else .ok none

/-- One entry of the key commitment document: the Base64 of
`u32 id ‖ public key bytes` (Base64 modelled as identity on bytes) and the
expiry as a decimal string. -/
structure CommitmentKeyEntry where
  Y : List ℕ
  expiry : String
  deriving DecidableEq

/-- The inner key commitment object. -/
structure KeyCommitmentBody where
  protocolVersion : String
  id : ℕ
  batchsize : ℕ
  keys : List (ℕ × CommitmentKeyEntry)
  deriving DecidableEq

/-- The full key commitment document `{host: {protocol name: body}}`. -/
structure KeyCommitmentDoc where
  host : String
  protocol : String
  body : KeyCommitmentBody
  deriving DecidableEq

/-- `PrivateStateTokenIssuer.keyCommitment`. -/
def keyCommitment (issuer : Issuer) (version : String) : KeyCommitmentDoc :=
  let protocol := getVersionConfig version
  { host := issuer.host
    protocol := protocol.name
    body :=
      { protocolVersion := protocol.name
        id := 1
        batchsize := issuer.maxBatchSize
        keys := issuer.publicKeysList.map (fun key =>
          (key.id, { Y := numberToBytes key.id 4 ++ key.toBytes
                     expiry := Nat.repr key.expiry })) } }

/-! ### Specification-side definitions

These follow the words of the specification / claims (not the source) and
are compared with the embedded code. -/

/-- Number of decimal digits of a positive natural number. -/
def digits10 (x : ℕ) : ℕ := log10floor x + 1

/-- The claim's scale exponent: the smallest element of
`{0, 3, 6, 9, 12, 15}` such that `expiry · 10^k` has at least 16 decimal
digits. -/
def claimExpiryK (e : ℕ) : ℕ :=
  (([0, 3, 6, 9, 12, 15].filter (fun k => 16 ≤ digits10 (e * 10 ^ k))).head?).getD 15

/-- The stored expiry according to the claim. -/
def claimExpiryStored (e : ℕ) : ℕ := e * 10 ^ claimExpiryK e

/-- The smallest multiple of 3 whose sum with `d` is at least 16 (always
one of `0, 3, 6, 9, 12, 15, 18` since `d ≥ 0`). -/
def amendedKofD (d : ℕ) : ℕ :=
  (([0, 3, 6, 9, 12, 15, 18].filter (fun k => 16 ≤ d + k)).head?).getD 18

/-- The amended scale exponent: the smallest multiple of 3 `k` with
`ceilLog10 expiry + k ≥ 16`. -/
def amendedK (e : ℕ) : ℕ := amendedKofD (ceilLog10 e)

/-- The batch transcript as the specification words it:
`B = pk_bytes ‖ Σᵢ (T_i bytes ‖ Z_i bytes)` in input order. -/
def batchTranscript (C : Curve) (kp : PrivateStateTokenKeyPair)
    (nonces : List ECPoint) : List ℕ :=
  kp.publicKey.toBytes ++
    (nonces.map (fun T => T.value ++ (T.multiply C kp.secretKey.scalar).value)).flatten

/-! ### A concrete curve-model instance

A small executable instance of the `Curve` interface, used to evaluate the
embedded code at concrete inputs (witnesses and failing inputs).  Point
validity is byte-shaped (97 bytes starting with `0x04`), so that encoding
and decoding cohere the way the library's do; the hash primitives
distinguish the two hash functions. -/

/-- A concrete model of the curve interface for evaluation. -/
def toyCurve : Curve :=
  { fromBytes := fun bs =>
      if bs.length = 97 ∧ bs.head? = some 4 then some (bytesToNumber (bs.drop 1)) else none
    ptBytes := fun p => 4 :: numberToBytes p 96
    mul := fun p s => p * 1000003 + s + 1
    add := fun p q => p + q * 7 + 3
    zero := 0
    base := 11
    hashToField := fun _ cfg => match cfg.hash with | .sha512 => 1 | .sha384 => 2
    hashToCurve := fun msg cfg =>
      msg.length + (match cfg.hash with | .sha512 => 100 | .sha384 => 200) }

/-- A concrete public key (97-byte integer form, as the source stores it). -/
def toyPub : PrivateStateTokenPublicKey := { id := 0, scalar := 123456789, expiry := 0 }

/-- A concrete secret key. -/
def toySec : PrivateStateTokenSecretKey := { id := 0, scalar := 5, expiry := 0 }

/-- A concrete key pair with id 0. -/
def toyKP : PrivateStateTokenKeyPair :=
  { id := 0, publicKey := toyPub, secretKey := toySec, expiry := 0 }

/-- A single-key issuer holding only key id 0. -/
def toyIssuer : Issuer :=
  { host := "https://localhost:8444", maxBatchSize := 10, keys := [(0, toyKP)] }

/-- A valid nonce point: 97 bytes `04 00 … 00`. -/
def toyT1 : ECPoint := ⟨4 :: List.replicate 96 0, 0⟩

/-- A second valid nonce point encoding the value 42. -/
def toyT2 : ECPoint := ⟨4 :: numberToBytes 42 96, 42⟩

/-- A two-nonce issue request. -/
def toyReq : IssueRequest := ⟨[toyT1, toyT2]⟩

/-- A 64-byte all-zero redemption nonce. -/
def toyNonce64 : List ℕ := List.replicate 64 0

/-- The issued element the toy issuer expects for `toyNonce64` under V3. -/
def toyGoodPointCode : ℕ :=
  toyCurve.mul
    (toyCurve.hashToCurve toyNonce64
      { DST := PrivateStateTokenV3VOPRF.hashToGroupDST, hash := PrivateStateTokenV3VOPRF.hash })
    toySec.scalar

/-- A redeem request that carries exactly the expected issued element. -/
def toyRedeemGood : RedeemRequest :=
  { keyID := 0
    nonce := toyNonce64
    point := ⟨4 :: numberToBytes toyGoodPointCode 96, toyGoodPointCode⟩
    clientData := [] }

/-- A redeem request naming the absent key id 99. -/
def toyRedeemUnknown : RedeemRequest :=
  { keyID := 99
    nonce := toyNonce64
    point := toyT1
    clientData := [] }

/-- A redeem request for round-trip evaluation. -/
def toyRedeemRT : RedeemRequest :=
  { keyID := 3
    nonce := List.replicate 64 5
    point := toyT2
    clientData := [1, 2] }

/-- The wire bytes of a three-element issue request whose middle 97 bytes
are not a valid point (they start with `0x05`). -/
def invalidMidBytes : List ℕ :=
  numberToBytes 3 2 ++ (4 :: List.replicate 96 0) ++ (5 :: List.replicate 96 0) ++
    (4 :: numberToBytes 1 96)

/-! ### Helper lemmas -/

lemma length_numberToBytes (v len : ℕ) : (numberToBytes v len).length = len := by
  induction len generalizing v with
  | zero => rfl
  | succ n ih => simp [numberToBytes, ih]

lemma bytesToNumber_numberToBytes (v len : ℕ) :
    bytesToNumber (numberToBytes v len) = v % 256 ^ len := by
  induction len generalizing v with
  | zero => simp [numberToBytes, bytesToNumber, Nat.mod_one]
  | succ n ih =>
    unfold numberToBytes bytesToNumber
    rw [List.foldl_append]
    unfold bytesToNumber at ih
    simp only [List.foldl]
    rw [ih]
    rw [pow_succ, mul_comm (256 ^ n) 256, Nat.mod_mul]
    ring

lemma readBytesD_append (l r : List ℕ) : readBytesD (l ++ r) l.length = .ok (l, r) := by
  simp [readBytesD, List.take_left, List.drop_left]

lemma readBytesD_exact (l r : List ℕ) (n : ℕ) (h : l.length = n) :
    readBytesD (l ++ r) n = .ok (l, r) := by
  rw [← h]; exact readBytesD_append l r

lemma readIntD_append (v len : ℕ) (r : List ℕ) :
    readIntD (numberToBytes v len ++ r) len = .ok (v % 256 ^ len, r) := by
  have h := readBytesD_append (numberToBytes v len) r
  rw [length_numberToBytes] at h
  simp [readIntD, h, bytesToNumber_numberToBytes]

lemma issueBatch_spec (C : Curve) (sk : ℕ) (ns : List ECPoint) :
    ∀ (s0 : List ECPoint) (b0 : List ℕ),
      issueBatch C sk ns (s0, b0) =
        (s0 ++ ns.map (fun T => T.multiply C sk),
          b0 ++ (ns.map (fun T => T.value ++ (T.multiply C sk).value)).flatten) := by
  induction ns with
  | nil => intro s0 b0; simp [issueBatch]
  | cons T rest ih => intro s0 b0; simp [issueBatch, ih, List.append_assoc]

lemma issueReqLoop_valid (C : Curve) (count : ℕ) (rest : List ECPoint) :
    ∀ (acc : List ECPoint) (fuel : ℕ),
      (∀ T ∈ rest, T.value.length = 97 ∧ C.fromBytes T.value = some T.point) →
      acc.length + rest.length = count →
      ((rest.map ECPoint.value).flatten).length < fuel →
      issueReqLoop C count fuel ((rest.map ECPoint.value).flatten) acc = .ok (acc ++ rest) := by
  induction rest with
  | nil =>
    intro acc fuel _ hcount hfuel
    obtain ⟨f, rfl⟩ : ∃ f, fuel = f + 1 := ⟨fuel - 1, by omega⟩
    simp only [List.map_nil, List.flatten_nil, List.length_nil] at hcount ⊢
    simp [issueReqLoop, show ¬ acc.length < count by omega]
  | cons T rs ih =>
    intro acc fuel hvalid hcount hfuel
    obtain ⟨f, rfl⟩ : ∃ f, fuel = f + 1 := ⟨fuel - 1, by omega⟩
    have hT := hvalid T (List.mem_cons_self _ _)
    simp only [List.map_cons, List.flatten_cons, List.length_cons] at hcount hfuel ⊢
    have hlenapp : ((T.value ++ (rs.map ECPoint.value).flatten)).length =
        97 + ((rs.map ECPoint.value).flatten).length := by
      simp [hT.1]
    have hacc : acc.length < count := by omega
    have hbuf : 97 ≤ (T.value ++ (rs.map ECPoint.value).flatten).length := by omega
    have htake : (T.value ++ (rs.map ECPoint.value).flatten).take 97 = T.value := by
      rw [← hT.1]; exact List.take_left _ _
    have hdrop : (T.value ++ (rs.map ECPoint.value).flatten).drop 97 =
        (rs.map ECPoint.value).flatten := by
      rw [← hT.1]; exact List.drop_left _ _
    have hfb : ECPoint.fromBytes C T.value = some T := by
      simp [ECPoint.fromBytes, hT.2]
    simp only [issueReqLoop, if_pos hacc, if_pos hbuf, htake, hdrop, hfb]
    rw [ih (acc ++ [T]) f (fun U hU => hvalid U (List.mem_cons_of_mem _ hU))
      (by simp; omega) (by rw [hlenapp] at hfuel; omega)]
    simp

lemma scaleK_eq (d : ℕ) : 3 * ((max (16 - d) 0 + 2) / 3) = amendedKofD d := by
  rcases le_or_lt 16 d with hd | hd
  · have h1 : 16 - d = 0 := by omega
    have h2 : amendedKofD d = 0 := by
      unfold amendedKofD
      rw [List.filter_cons_of_pos (by simp; omega)]
      simp
    rw [h1, h2]
    decide
  · interval_cases d <;> decide

lemma log10floorAux_eq : ∀ (fuel x : ℕ), x ≤ fuel → log10floorAux fuel x = Nat.log 10 x := by
  intro fuel
  induction fuel with
  | zero =>
    intro x hx
    have : x = 0 := by omega
    subst this
    simp [log10floorAux]
  | succ f ih =>
    intro x hx
    by_cases h10 : x < 10
    · simp [log10floorAux, h10, Nat.log_of_lt h10]
    · push_neg at h10
      have hdiv : x / 10 ≤ f := by
        have : x / 10 < x := Nat.div_lt_self (by omega) (by omega)
        omega
      simp only [log10floorAux, if_neg (by omega : ¬ x < 10)]
      rw [ih (x / 10) hdiv, Nat.log_div_base]
      have : 0 < Nat.log 10 x := Nat.log_pos (by omega) h10
      omega

lemma ceilLog10_ge16 (e : ℕ) (h : 10 ^ 15 < e) : 16 ≤ ceilLog10 e := by
  have hp : (10 : ℕ) ^ 15 = 1000000000000000 := by norm_num
  unfold ceilLog10
  rw [if_neg (by omega)]
  unfold log10floor
  rw [log10floorAux_eq _ _ le_rfl]
  have h15 : 10 ^ 15 ≤ e - 1 := by omega
  have := (Nat.pow_le_iff_le_log (b := 10) (by norm_num) (y := e - 1) (by omega)).mp h15
  omega

lemma issueResponse_toBytes_frame (m : IssueResponse) (hm : m.proof.length = 96) :
    m.toBytes = numberToBytes m.issued 2 ++ numberToBytes m.keyID 4 ++
      (m.signed.map ECPoint.value).flatten ++ [0, 96] ++ m.proof := by
  unfold IssueResponse.toBytes
  rw [hm]
  rfl

/-! ### Claim theorems -/

/-- C4: with a key id absent from the issuer's map, `issue` returns `null`
(`none`), which is distinguishable from a successful empty response
(`isSome`); but `redeem` does not return a clean reject — the undefined
secret scalar makes the curve library's `multiply` throw (`.error ()`). -/
theorem unknown_key_outcomes :
    issue toyCurve toyIssuer 99 toyReq "PrivateStateTokenV3VOPRF" = none ∧
    redeem toyCurve toyIssuer toyRedeemUnknown [7] "PrivateStateTokenV3VOPRF" = .error () ∧
    (issue toyCurve toyIssuer 0 (IssueRequest.mk []) "PrivateStateTokenV3VOPRF").isSome = true := by
  refine ⟨rfl, rfl, rfl⟩

/-- C7: a three-element issue request whose middle 97 bytes are not a valid
point does not decode to the two valid nonces: after skipping the invalid
chunk the `while (nonces.length < count)` loop reads a fourth 97-byte chunk
past the end of the buffer, a hard parse error. -/
theorem invalid_middle_point_errors :
    IssueRequest.fromBytes toyCurve invalidMidBytes = .error () := by
  rfl

/-- C9 counterexample: ingesting `expiry = 1` stores `10^18`, not
`1 · 10^15` as the claim's smallest-`k`-in-`{0,3,6,9,12,15}` rule demands
(`Math.log10 1` is exactly `0` by the ECMAScript specification, so floating
point cannot rescue the claim at this input). -/
theorem expiry_scaling_counterexample :
    (PrivateStateTokenKeyPair.make 0 toyPub toySec 1 0).expiry = 10 ^ 18 ∧
    claimExpiryStored 1 = 1 * 10 ^ 15 ∧
    (10 : ℕ) ^ 18 ≠ 1 * 10 ^ 15 := by
  refine ⟨by decide, by decide, by decide⟩

/-- C9 amended: the stored expiry is `expiry · 10^k` where `k` is the
smallest multiple of 3 (possibly 18, not capped at 15) such that
`L(expiry) + k ≥ 16`, with `L(e)` the least `m` with `10^m ≥ e` (the digit
count of `e`, minus one when `e` is a power of 10); consequently every
expiry greater than `10^15` is stored unchanged, while `10^15` itself (16
digits) is scaled by `10^3`. -/
theorem expiry_scaling_amended (id : ℕ) (pub : PrivateStateTokenPublicKey)
    (sec : PrivateStateTokenSecretKey) (e now : ℕ) (he : 1 ≤ e) :
    (PrivateStateTokenKeyPair.make id pub sec e now).expiry = e * 10 ^ amendedK e ∧
    (10 ^ 15 < e → (PrivateStateTokenKeyPair.make id pub sec e now).expiry = e) := by
  have hmk : (PrivateStateTokenKeyPair.make id pub sec e now).expiry = scaleExpiry e := by
    simp [PrivateStateTokenKeyPair.make, jsOr, show ¬ e = 0 by omega]
  constructor
  · rw [hmk]
    unfold scaleExpiry amendedK
    rw [scaleK_eq]
  · intro hbig
    rw [hmk]
    have h16 := ceilLog10_ge16 e hbig
    unfold scaleExpiry
    have hz : 16 - ceilLog10 e = 0 := by omega
    rw [hz]
    norm_num

/-- C9 amended, witness at the test key's expiry 253402300799 (12 digits,
scaled to microseconds by `10^6`). -/
theorem expiry_scaling_amended_witness :
    1 ≤ 253402300799 ∧
    (PrivateStateTokenKeyPair.make 0 toyPub toySec 253402300799 0).expiry =
      253402300799 * 10 ^ amendedK 253402300799 :=
  ⟨by decide,
    (expiry_scaling_amended 0 toyPub toySec 253402300799 0 (by decide)).1⟩

/-- C10: every version string other than the two recognized names selects
the `PrivateStateTokenV3VOPRF` configuration, and `issue`, `redeem` and
`keyCommitment` then behave exactly as under V3. -/
theorem unknown_version_defaults_v3 (v : String)
    (h1 : v ≠ "PrivateStateTokenV1VOPRF") (h2 : v ≠ "PrivateStateTokenV3VOPRF") :
    getVersionConfig v = PrivateStateTokenV3VOPRF ∧
    (∀ (C : Curve) (I : Issuer) (keyId : ℕ) (req : IssueRequest),
      issue C I keyId req v = issue C I keyId req "PrivateStateTokenV3VOPRF") ∧
    (∀ (C : Curve) (I : Issuer) (req : RedeemRequest) (record : List ℕ),
      redeem C I req record v = redeem C I req record "PrivateStateTokenV3VOPRF") ∧
    (∀ I : Issuer, keyCommitment I v = keyCommitment I "PrivateStateTokenV3VOPRF") := by
  have hv : getVersionConfig v = PrivateStateTokenV3VOPRF := by
    unfold getVersionConfig
    rw [if_neg h2, if_neg h1]
  have hv3 : getVersionConfig "PrivateStateTokenV3VOPRF" = PrivateStateTokenV3VOPRF := by
    unfold getVersionConfig
    rw [if_pos rfl]
  refine ⟨hv, ?_, ?_, ?_⟩
  · intro C I keyId req
    unfold issue
    rw [hv, hv3]
  · intro C I req record
    unfold redeem
    rw [hv, hv3]
  · intro I
    unfold keyCommitment
    rw [hv, hv3]

/-- C10 witness at the unrecognized version string "bogus". -/
theorem unknown_version_defaults_v3_witness :
    ("bogus" ≠ "PrivateStateTokenV1VOPRF") ∧ ("bogus" ≠ "PrivateStateTokenV3VOPRF") ∧
    getVersionConfig "bogus" = PrivateStateTokenV3VOPRF ∧
    (∀ (C : Curve) (I : Issuer) (keyId : ℕ) (req : IssueRequest),
      issue C I keyId req "bogus" = issue C I keyId req "PrivateStateTokenV3VOPRF") ∧
    (∀ (C : Curve) (I : Issuer) (req : RedeemRequest) (record : List ℕ),
      redeem C I req record "bogus" = redeem C I req record "PrivateStateTokenV3VOPRF") ∧
    (∀ I : Issuer, keyCommitment I "bogus" = keyCommitment I "PrivateStateTokenV3VOPRF") :=
  ⟨by decide, by decide,
    (unknown_version_defaults_v3 "bogus" (by decide) (by decide)).1,
    (unknown_version_defaults_v3 "bogus" (by decide) (by decide)).2.1,
    (unknown_version_defaults_v3 "bogus" (by decide) (by decide)).2.2.1,
    (unknown_version_defaults_v3 "bogus" (by decide) (by decide)).2.2.2⟩

/-- C1: with a key pair found for `keyId`, `issue` responds, and the signed
list is pointwise `sk · T_i`, positionally matching the input nonces. -/
theorem issue_signed_pointwise (C : Curve) (I : Issuer) (keyId : ℕ)
    (req : IssueRequest) (version : String) (kp : PrivateStateTokenKeyPair)
    (h : I.keys.lookup keyId = some kp) :
    ∃ resp, issue C I keyId req version = some resp ∧
      resp.signed = req.nonces.map (fun T => T.multiply C kp.secretKey.scalar) ∧
      ∀ i : ℕ, resp.signed[i]? =
        (req.nonces[i]?).map (fun T => T.multiply C kp.secretKey.scalar) := by
  simp only [issue, h]
  refine ⟨_, rfl, ?_, ?_⟩
  · rw [issueBatch_spec]
    simp
  · intro i
    rw [issueBatch_spec]
    simp [List.getElem?_map]

/-- C1 witness at a two-nonce request against the concrete issuer. -/
theorem issue_signed_pointwise_witness :
    toyIssuer.keys.lookup 0 = some toyKP ∧
    ∃ resp, issue toyCurve toyIssuer 0 toyReq "PrivateStateTokenV3VOPRF" = some resp ∧
      resp.signed = toyReq.nonces.map (fun T => T.multiply toyCurve toyKP.secretKey.scalar) ∧
      ∀ i : ℕ, resp.signed[i]? =
        (toyReq.nonces[i]?).map (fun T => T.multiply toyCurve toyKP.secretKey.scalar) :=
  ⟨rfl, issue_signed_pointwise toyCurve toyIssuer 0 toyReq "PrivateStateTokenV3VOPRF" toyKP rfl⟩

/-- C2: with a key pair found for `request.keyID`, `redeem` returns the
supplied record exactly when the supplied point equals `sk ·
hash_to_group(nonce)` under the selected version's hash-to-group DST and
hash, and rejects (returns `null`) for any other point. -/
theorem redeem_iff_point_matches (C : Curve) (I : Issuer) (req : RedeemRequest)
    (record : List ℕ) (version : String) (kp : PrivateStateTokenKeyPair)
    (h : I.keys.lookup req.keyID = some kp) :
    (redeem C I req record version = .ok (some ⟨record⟩) ↔
      req.point.point =
        C.mul (C.hashToCurve req.nonce
          { DST := (getVersionConfig version).hashToGroupDST
            hash := (getVersionConfig version).hash }) kp.secretKey.scalar) ∧
    (req.point.point ≠
        C.mul (C.hashToCurve req.nonce
          { DST := (getVersionConfig version).hashToGroupDST
            hash := (getVersionConfig version).hash }) kp.secretKey.scalar →
      redeem C I req record version = .ok none) := by
  simp only [redeem, h]
  constructor
  · split_ifs with hc
    · simp [hc]
    · simp [hc]
  · intro hne
    rw [if_neg hne]

/-- C2 witness: a matching point redeems, by the theorem applied at the
concrete issuer. -/
theorem redeem_iff_point_matches_witness :
    toyIssuer.keys.lookup 0 = some toyKP ∧
    ((redeem toyCurve toyIssuer toyRedeemGood [9] "PrivateStateTokenV3VOPRF" =
        .ok (some ⟨[9]⟩) ↔
      toyRedeemGood.point.point =
        toyCurve.mul (toyCurve.hashToCurve toyRedeemGood.nonce
          { DST := (getVersionConfig "PrivateStateTokenV3VOPRF").hashToGroupDST
            hash := (getVersionConfig "PrivateStateTokenV3VOPRF").hash })
          toyKP.secretKey.scalar) ∧
    (toyRedeemGood.point.point ≠
        toyCurve.mul (toyCurve.hashToCurve toyRedeemGood.nonce
          { DST := (getVersionConfig "PrivateStateTokenV3VOPRF").hashToGroupDST
            hash := (getVersionConfig "PrivateStateTokenV3VOPRF").hash })
          toyKP.secretKey.scalar →
      redeem toyCurve toyIssuer toyRedeemGood [9] "PrivateStateTokenV3VOPRF" = .ok none)) :=
  ⟨rfl, redeem_iff_point_matches toyCurve toyIssuer toyRedeemGood [9]
    "PrivateStateTokenV3VOPRF" toyKP rfl⟩

/-- C3: issuing under `PrivateStateTokenV1VOPRF` still computes the DLEQ
challenge with the V3 configuration (the source never forwards `version` to
`#generateDLEQProof`): under a curve model whose hash-to-field returns 1
for every SHA-512 configuration and 2 for every SHA-384 configuration, the
emitted challenge bytes encode 1, while a challenge computed with the V1
hash-to-scalar configuration would encode 2. -/
theorem dleq_challenge_ignores_version :
    ∃ resp, issue toyCurve toyIssuer 0 toyReq "PrivateStateTokenV1VOPRF" = some resp ∧
      resp.proof.take 48 = numberToBytes 1 48 ∧
      (∀ msg, toyCurve.hashToField msg (htfConfig PrivateStateTokenV3VOPRF) = 1) ∧
      (∀ msg, toyCurve.hashToField msg (htfConfig PrivateStateTokenV1VOPRF) = 2) ∧
      numberToBytes 1 48 ≠ numberToBytes 2 48 := by
  refine ⟨_, rfl, ?_, fun msg => rfl, fun msg => rfl, by decide⟩
  rfl

/-- C5: with a key pair found for `keyId`, the proof emitted by `issue` is
exactly `c_bytes(48) ‖ u_bytes(48)` with `u = (r + c · sk) mod n`, 96 bytes
long, and `IssueResponse.toBytes` frames it behind the u16 length 96. -/
theorem issue_proof_encoding (C : Curve) (I : Issuer) (keyId : ℕ)
    (req : IssueRequest) (version : String) (kp : PrivateStateTokenKeyPair)
    (h : I.keys.lookup keyId = some kp) :
    ∃ resp c, issue C I keyId req version = some resp ∧
      resp.proof = numberToBytes c 48 ++
        numberToBytes ((VOPRF_P384_ORDER - 1 + c * kp.secretKey.scalar) %
          VOPRF_P384_ORDER) 48 ∧
      resp.proof.length = 96 ∧
      resp.toBytes = numberToBytes resp.issued 2 ++ numberToBytes resp.keyID 4 ++
        (resp.signed.map ECPoint.value).flatten ++ [0, 96] ++ resp.proof := by
  simp only [issue, h, generateDLEQProof]
  refine ⟨_, _, rfl, rfl, ?_, ?_⟩
  · simp [length_numberToBytes]
  · apply issueResponse_toBytes_frame
    simp [length_numberToBytes]

/-- C5 witness against the concrete issuer and a two-nonce request. -/
theorem issue_proof_encoding_witness :
    toyIssuer.keys.lookup 0 = some toyKP ∧
    ∃ resp c, issue toyCurve toyIssuer 0 toyReq "PrivateStateTokenV3VOPRF" = some resp ∧
      resp.proof = numberToBytes c 48 ++
        numberToBytes ((VOPRF_P384_ORDER - 1 + c * toyKP.secretKey.scalar) %
          VOPRF_P384_ORDER) 48 ∧
      resp.proof.length = 96 ∧
      resp.toBytes = numberToBytes resp.issued 2 ++ numberToBytes resp.keyID 4 ++
        (resp.signed.map ECPoint.value).flatten ++ [0, 96] ++ resp.proof :=
  ⟨rfl, issue_proof_encoding toyCurve toyIssuer 0 toyReq "PrivateStateTokenV3VOPRF" toyKP rfl⟩

/-- C6: with a key pair found for `keyId`, `issue` responds and its `i`-th
batch coefficient is `hash_to_scalar("DLEQ BATCH\0" ‖ B ‖ u16(i))` under the
selected version's hash-to-scalar configuration, where `B` is the public
key bytes followed by each `T_i` and `Z_i = sk · T_i` in order. -/
theorem issue_batch_exponents (C : Curve) (I : Issuer) (keyId : ℕ)
    (req : IssueRequest) (version : String) (kp : PrivateStateTokenKeyPair) (i : ℕ)
    (h : I.keys.lookup keyId = some kp) (hi : i < req.count) :
    (issue C I keyId req version).isSome = true ∧
    (issueExponentList C (getVersionConfig version) kp req)[i]? =
      some (C.hashToField
        (dleqBatchHeader ++ batchTranscript C kp req.nonces ++ numberToBytes i 2)
        (htfConfig (getVersionConfig version))) := by
  constructor
  · simp [issue, h]
  · unfold issueExponentList
    rw [issueBatch_spec]
    simp only [List.getElem?_map, List.getElem?_range hi]
    simp [batchTranscript]

/-- C6 witness at index 0 of a two-nonce request. -/
theorem issue_batch_exponents_witness :
    toyIssuer.keys.lookup 0 = some toyKP ∧ 0 < toyReq.count ∧
    ((issue toyCurve toyIssuer 0 toyReq "PrivateStateTokenV3VOPRF").isSome = true ∧
    (issueExponentList toyCurve (getVersionConfig "PrivateStateTokenV3VOPRF") toyKP toyReq)[0]? =
      some (toyCurve.hashToField
        (dleqBatchHeader ++ batchTranscript toyCurve toyKP toyReq.nonces ++ numberToBytes 0 2)
        (htfConfig (getVersionConfig "PrivateStateTokenV3VOPRF")))) :=
  ⟨rfl, by decide,
    issue_batch_exponents toyCurve toyIssuer 0 toyReq "PrivateStateTokenV3VOPRF" toyKP 0
      rfl (by decide)⟩

/-- C8: decoding is a left inverse of encoding: an `IssueRequest` of valid
97-byte points whose count fits in a u16 round-trips, and a `RedeemRequest`
with a 64-byte nonce, a valid 97-byte point, a u32 key id and u16-sized
client data round-trips with equal fields. -/
theorem wire_roundtrip (C : Curve) (m : IssueRequest) (rm : RedeemRequest)
    (hm1 : m.count < 65536)
    (hm2 : ∀ T ∈ m.nonces, T.value.length = 97 ∧ C.fromBytes T.value = some T.point)
    (hr1 : rm.nonce.length = 64)
    (hr2 : rm.point.value.length = 97)
    (hr3 : C.fromBytes rm.point.value = some rm.point.point)
    (hr4 : rm.keyID < 4294967296)
    (hr5 : rm.clientData.length < 65536) :
    IssueRequest.fromBytes C m.toBytes = .ok m ∧
    RedeemRequest.fromBytes C rm.toBytes = .ok rm := by
  constructor
  · have hc : m.count % 256 ^ 2 = m.count :=
      Nat.mod_eq_of_lt (by calc m.count < 65536 := hm1
                             _ = 256 ^ 2 := by norm_num)
    have h1 : readIntD (IssueRequest.toBytes m) 2 =
        .ok (m.count, (m.nonces.map ECPoint.value).flatten) := by
      unfold IssueRequest.toBytes
      rw [readIntD_append, hc]
    have h2 : issueReqLoop C m.count (((m.nonces.map ECPoint.value).flatten).length + 1)
        ((m.nonces.map ECPoint.value).flatten) [] = .ok m.nonces := by
      have := issueReqLoop_valid C m.count m.nonces []
        (((m.nonces.map ECPoint.value).flatten).length + 1) hm2
        (by simp [IssueRequest.count]) (Nat.lt_succ_self _)
      simpa using this
    unfold IssueRequest.fromBytes
    rw [h1]
    simp only [h2]
  · have hk : rm.keyID % 256 ^ 4 = rm.keyID :=
      Nat.mod_eq_of_lt (by calc rm.keyID < 4294967296 := hr4
                             _ = 256 ^ 4 := by norm_num)
    have hcd : rm.clientData.length % 256 ^ 2 = rm.clientData.length :=
      Nat.mod_eq_of_lt (by calc rm.clientData.length < 65536 := hr5
                             _ = 256 ^ 2 := by norm_num)
    have s3 : ∀ X, readBytesD (rm.nonce ++ X) 64 = .ok (rm.nonce, X) :=
      fun X => readBytesD_exact _ _ _ hr1
    have s4 : ∀ X, readBytesD (rm.point.value ++ X) 97 = .ok (rm.point.value, X) :=
      fun X => readBytesD_exact _ _ _ hr2
    have s5 : ECPoint.fromBytes C rm.point.value = some rm.point := by
      simp [ECPoint.fromBytes, hr3]
    have s7 : readBytesD rm.clientData rm.clientData.length = .ok (rm.clientData, []) := by
      simpa using readBytesD_append rm.clientData []
    unfold RedeemRequest.fromBytes RedeemRequest.toBytes
    simp only [List.append_assoc]
    simp only [readIntD_append, hk, hcd, s3, s4, s5, s7]

/-- C8 witness: concrete issue and redeem requests round-trip. -/
theorem wire_roundtrip_witness :
    toyReq.count < 65536 ∧ toyRedeemRT.nonce.length = 64 ∧
    IssueRequest.fromBytes toyCurve toyReq.toBytes = .ok toyReq ∧
    RedeemRequest.fromBytes toyCurve toyRedeemRT.toBytes = .ok toyRedeemRT :=
  ⟨by decide, by decide,
    (wire_roundtrip toyCurve toyReq toyRedeemRT (by decide) (by decide) (by decide)
      (by decide) (by decide) (by decide) (by decide)).1,
    (wire_roundtrip toyCurve toyReq toyRedeemRT (by decide) (by decide) (by decide)
      (by decide) (by decide) (by decide) (by decide)).2⟩

end PST
